import Mathlib

/-!
Verification of the incremental HTML push-parsing binding
(`ext/nokogiri/html4_sax_push_parser.c`) and of the incremental
feeding / error-policy state machine specified on top of it.

Part 1 is a shallow embedding of the two C entry points
(`noko_html4_sax_push_parser__native_write` and
`noko_html4_sax_push_parser__initialize_native`).  The underlying
library functions (`htmlParseChunk`, `xmlParseCharEncoding`,
`htmlCreatePushParserCtxt`) are not part of this repository, so the
embedding is parameterised over them: every theorem quantifies over
their behaviour.

Part 2 models, from the specification, the Parser Session state
machine (states Created / Feeding / Finished / Failed), the Error
Policy, the Chunk Buffer and the Encoding Resolver, which are not
present under the C source (the binding delegates them), and proves
the session-level claims against that model.
-/

namespace Noko

/-- The `XML_PARSE_RECOVER` option bit of the underlying library
(value `1 << 0`), tested by `native_write` via `xmlCtxtGetOptions`. -/
def XML_PARSE_RECOVER : Nat := 1

/-- A structured error record as returned by `xmlCtxtGetLastError`. -/
structure XmlSyntaxError where
  code : Int
  message : String
deriving DecidableEq, Repr

/-- The global libxml structured-error-handler registration that
`noko__structured_error_func_save_and_set` saves and overwrites and
`noko__structured_error_func_restore` puts back: a handler function
(identified abstractly by a number) and its user-data pointer. -/
structure HandlerState where
  func : Option Nat
  userData : Option Nat
deriving DecidableEq, Repr

/-- The visible fields of an `xmlParserCtxt`: the option bitmask read
by `xmlCtxtGetOptions`, the last structured error read by
`xmlCtxtGetLastError`, and the rest of the parser state, abstracted as
a type parameter `σ` (the chunk-parsing library transforms it). -/
structure Ctxt (σ : Type) where
  options : Nat
  lastError : Option XmlSyntaxError
  parserState : σ
deriving DecidableEq, Repr

/-- The host-level exceptions the two C entry points can raise:
`rb_raise(rb_eArgError, "Unsupported Encoding")`,
`rb_raise(rb_eRuntimeError, "Could not create a parser context")`, and
`noko__error_raise(NULL, e)` on a fatal parse status. -/
inductive RubyError where
  | unsupportedEncoding
  | contextAllocFailed
  | fatalParseError (e : Option XmlSyntaxError)
deriving DecidableEq, Repr

/-- Shallow embedding of `noko_html4_sax_push_parser__native_write`.
`htmlParseChunk` is the underlying library call, received as a
parameter: given the current global handler registration, the parser
state, the chunk bytes and the last-chunk flag, it returns the new
handler registration, the new parser state, the context's last error
and the `int` status.  The C function: reads the chunk pointer and
length when the chunk is not nil (nil passes `NULL` and size `0`),
saves the global structured-error handler and sets it to
`(NULL, NULL)`, calls `htmlParseChunk`, restores the saved handler,
and then raises the context's last error exactly when the status is
nonzero and the context options lack `XML_PARSE_RECOVER`; otherwise it
returns `self`. -/
def native_write {σ : Type}
    (htmlParseChunk : HandlerState → σ → List Nat → Bool → HandlerState × σ × Option XmlSyntaxError × Int)
    (g : HandlerState) (ctx : Ctxt σ)
    (chunk : Option (List Nat)) (lastChunk : Bool) :
    HandlerState × Except RubyError (Ctxt σ) :=
  let data : List Nat := match chunk with
    | none => []
    | some s => s
  let saved : HandlerState := g
  let r := htmlParseChunk ⟨none, none⟩ ctx.parserState data lastChunk
  let status : Int := r.2.2.2
  let ctx2 : Ctxt σ := { ctx with parserState := r.2.1, lastError := r.2.2.1 }
  let gOut : HandlerState := saved
  if status ≠ 0 ∧ ctx2.options &&& XML_PARSE_RECOVER = 0 then
    (gOut, Except.error (RubyError.fatalParseError ctx2.lastError))
  else
    (gOut, Except.ok ctx2)

/-- `XML_CHAR_ENCODING_ERROR` of the underlying library. -/
def XML_CHAR_ENCODING_ERROR : Int := -1

/-- `XML_CHAR_ENCODING_NONE` of the underlying library. -/
def XML_CHAR_ENCODING_NONE : Int := 0

/-- Shallow embedding of `noko_html4_sax_push_parser__initialize_native`.
`xmlParseCharEncoding` (name → encoding code) and
`htmlCreatePushParserCtxt` (encoding code and filename → context, or
`NULL`) are underlying library calls received as parameters.  The C
function: starts from `XML_CHAR_ENCODING_NONE`; when the encoding
argument is not nil it parses the name and raises `ArgError`
("Unsupported Encoding") if the result is `XML_CHAR_ENCODING_ERROR`;
only then creates the push-parser context, raising `RuntimeError` if
creation returns `NULL`, and otherwise stores the context and returns
`self`. -/
def initialize_native {σ : Type}
    (xmlParseCharEncoding : String → Int)
    (htmlCreatePushParserCtxt : Int → Option String → Option (Ctxt σ))
    (filename : Option String) (encoding : Option String) :
    Except RubyError (Ctxt σ) :=
  let encResult : Except RubyError Int :=
    match encoding with
    | none => Except.ok XML_CHAR_ENCODING_NONE
    | some name =>
        if xmlParseCharEncoding name = XML_CHAR_ENCODING_ERROR then
          Except.error RubyError.unsupportedEncoding
        else
          Except.ok (xmlParseCharEncoding name)
  match encResult with
  | Except.error e => Except.error e
  | Except.ok enc =>
      match htmlCreatePushParserCtxt enc filename with
      | none => Except.error RubyError.contextAllocFailed
      | some ctx => Except.ok ctx

/-- Modelled from the spec: the session states of the Parser Session
(§3), `Created → Feeding → Finished`, with `Failed` terminal. -/
inductive SessionState where
  | Created
  | Feeding
  | Finished
  | Failed
deriving DecidableEq, Repr

/-- Modelled from the spec: the severity of a `ParseError` (§3). -/
inductive Severity where
  | Recoverable
  | Fatal
deriving DecidableEq, Repr

/-- Modelled from the spec: a `ParseError` record (§3) — message,
severity assigned by the Error Policy, optional (line, column). -/
structure SpecParseError where
  message : String
  severity : Severity
  location : Option (Nat × Nat)
deriving DecidableEq, Repr

/-- Modelled from the spec: an error as surfaced by the
tokenizer/tree-builder, before the Error Policy assigns a severity. -/
structure RawError where
  message : String
  location : Option (Nat × Nat)
deriving DecidableEq, Repr

/-- Modelled from the spec: the failures of `feed` (§4.1, §7) —
`InvalidState` for contract misuse and `FatalParseError` carrying the
triggering `ParseError`. -/
inductive FeedFailure where
  | InvalidState
  | FatalParseError (e : SpecParseError)
deriving DecidableEq, Repr

/-- Modelled from the spec: the consumer-provided capabilities the
session coordinates (§2, §6) — the Encoding Resolver's sniffing and
decoding (`decode` returns the decoded complete units and the
undecoded remainder, or `none` on a decode failure), the force-decode
of a trailing remainder at finish (§4.4), and the tokenizer /
tree-builder capability (`feedText` and `finalize`, each returning the
new tokenizer state, the emitted tokens and the raised errors). -/
structure Capabilities (σ τ : Type) where
  sniff : List Nat → String
  decode : String → List Nat → Option (List Char × List Nat)
  forceDecode : String → List Nat → List Char
  feedText : σ → List Char → σ × List τ × List RawError
  finalize : σ → σ × List τ × List RawError

/-- Modelled from the spec: the `ParserSession` record (§3). `σ` is the
tokenizer/tree-builder state, `τ` the emitted token (SAX callback)
type; `outputs` is the ordered stream of emitted tokens (the
document-tree mutations observed by the handlers). -/
structure Session (σ τ : Type) where
  state : SessionState
  recoverMode : Bool
  filename : Option String
  encoding : Option String
  pendingBuffer : List Nat
  errorSink : List SpecParseError
  tokState : σ
  outputs : List τ
deriving DecidableEq, Repr

/-- Modelled from the spec: the Error Policy's severity assignment
(§4.3) — under `recoverMode` every tokenizer error is `Recoverable`,
otherwise every error is `Fatal`. -/
def classify (recoverMode : Bool) : Severity :=
  if recoverMode then Severity.Recoverable else Severity.Fatal

/-- Modelled from the spec: the `ParseError` recorded for a decode
failure, which is always `Fatal` regardless of `recoverMode` (§4.3). -/
def decodeFailure : SpecParseError :=
  ⟨"decode failure", Severity.Fatal, none⟩

/-- Modelled from the spec: one run of the tokenizer capability — feed
the decoded text, and on the last chunk also run end-of-document
finalization (§4.1); tokens and errors of the two phases concatenate
in order. -/
def runTok {σ τ : Type} (caps : Capabilities σ τ) (st : σ)
    (text : List Char) (isLast : Bool) : σ × List τ × List RawError :=
  let p := caps.feedText st text
  if isLast then
    let q := caps.finalize p.1
    (q.1, p.2.1 ++ q.2.1, p.2.2 ++ q.2.2)
  else
    p

/-- Modelled from the spec: the `feed` operation of the Parser Session
(§4.1), coordinating the Chunk Buffer (§4.4), the Encoding Resolver
(§4.2) and the Error Policy (§4.3), none of which are present in the C
source (the binding delegates them to the wrapped library).  Returns
the updated session together with `Ok` or the failure.  Steps:
feeding a `Finished` or `Failed` session fails with `InvalidState`; a
nil chunk is treated as empty; an empty chunk with `isLast = false` is
a no-op returning Ok; otherwise the chunk is appended to
`pendingBuffer`, the encoding is resolved (kept if already resolved,
else sniffed from the buffered bytes), the buffer is decoded (a decode
failure is always Fatal: the session becomes `Failed`), the decoded
text — extended on the last chunk by the force-decoded remainder — is
fed to the tokenizer (with end-of-document finalization on the last
chunk); under `recoverMode` every tokenizer error is appended to
`errorSink` as `Recoverable` and the call returns Ok, transitioning to
`Finished` on the last chunk and `Feeding` otherwise; in strict mode a
first tokenizer error makes the session `Failed` and the call fails
with `FatalParseError` carrying it. -/
def Session.feed {σ τ : Type} (caps : Capabilities σ τ) (s : Session σ τ)
    (chunk : Option (List Nat)) (isLast : Bool) :
    Session σ τ × Except FeedFailure Unit :=
  if s.state = SessionState.Finished ∨ s.state = SessionState.Failed then
    (s, Except.error FeedFailure.InvalidState)
  else
    let data : List Nat := chunk.getD []
    if data = [] ∧ isLast = false then
      (s, Except.ok ())
    else
      let buf := s.pendingBuffer ++ data
      let enc := s.encoding.getD (caps.sniff buf)
      match caps.decode enc buf with
      | none =>
          ({ s with state := SessionState.Failed,
                    encoding := some enc,
                    errorSink := s.errorSink ++ [decodeFailure] },
           Except.error (FeedFailure.FatalParseError decodeFailure))
      | some tr =>
          let textAll := if isLast then tr.1 ++ caps.forceDecode enc tr.2 else tr.1
          let rem : List Nat := if isLast then [] else tr.2
          let r := runTok caps s.tokState textAll isLast
          if s.recoverMode then
            ({ s with
                state := if isLast then SessionState.Finished else SessionState.Feeding,
                encoding := some enc,
                pendingBuffer := rem,
                tokState := r.1,
                outputs := s.outputs ++ r.2.1,
                errorSink := s.errorSink ++
                  r.2.2.map (fun e => ⟨e.message, classify true, e.location⟩) },
             Except.ok ())
          else
            match r.2.2 with
            | [] =>
                ({ s with
                    state := if isLast then SessionState.Finished else SessionState.Feeding,
                    encoding := some enc,
                    pendingBuffer := rem,
                    tokState := r.1,
                    outputs := s.outputs ++ r.2.1 },
                 Except.ok ())
            | e :: _ =>
                ({ s with state := SessionState.Failed,
                          encoding := some enc,
                          pendingBuffer := rem,
                          tokState := r.1,
                          outputs := s.outputs ++ r.2.1,
                          errorSink := s.errorSink ++
                            [⟨e.message, classify false, e.location⟩] },
                 Except.error (FeedFailure.FatalParseError
                   ⟨e.message, classify false, e.location⟩))


/-- Decidable equality for `Except`, used to evaluate the model on
concrete inputs. -/
instance {ε α : Type} [DecidableEq ε] [DecidableEq α] : DecidableEq (Except ε α) := fun x y =>
  match x, y with
  | Except.error a, Except.error b =>
      if h : a = b then Decidable.isTrue (congrArg Except.error h)
      else Decidable.isFalse (fun hh => h (Except.error.inj hh))
  | Except.error _, Except.ok _ => Decidable.isFalse (fun hh => Except.noConfusion hh)
  | Except.ok _, Except.error _ => Decidable.isFalse (fun hh => Except.noConfusion hh)
  | Except.ok a, Except.ok b =>
      if h : a = b then Decidable.isTrue (congrArg Except.ok h)
      else Decidable.isFalse (fun hh => h (Except.ok.inj hh))

/-- A concrete capability instance used to evaluate the model: bytes
below 128 decode one-to-one (a byte of 128 or more is a decode
failure), the tokenizer state counts consumed characters, every
character is emitted as one token (its code point), and the tokenizer
raises no errors. -/
def asciiCaps : Capabilities Nat Nat where
  sniff _ := "UTF-8"
  decode _ bs := if bs.all (fun b => b < 128) then some (bs.map Char.ofNat, []) else none
  forceDecode _ bs := bs.map Char.ofNat
  feedText st text := (st + text.length, text.map Char.toNat, [])
  finalize st := (st, [], [])

/-- A concrete capability instance whose tokenizer raises one
well-formedness error on every fed text, with the same byte-wise
codec as `asciiCaps`. -/
def soupCaps : Capabilities Nat Nat where
  sniff _ := "UTF-8"
  decode _ bs := if bs.all (fun b => b < 128) then some (bs.map Char.ofNat, []) else none
  forceDecode _ bs := bs.map Char.ofNat
  feedText st text := (st + text.length, [], [⟨"unmatched closing tag", none⟩])
  finalize st := (st, [], [])

/-- A concrete recover-mode session in the `Feeding` state with a
resolved encoding and one accumulated recoverable error. -/
def feedingRecover : Session Nat Nat :=
  ⟨SessionState.Feeding, true, none, some "UTF-8", [], [⟨"w", Severity.Recoverable, none⟩], 0, []⟩

/-- A concrete strict-mode session in the `Feeding` state with a
resolved encoding. -/
def feedingStrict : Session Nat Nat :=
  ⟨SessionState.Feeding, false, none, some "UTF-8", [], [], 0, []⟩

/-- A concrete session in the `Finished` state. -/
def finishedSession : Session Nat Nat :=
  ⟨SessionState.Finished, true, none, some "UTF-8", [], [], 3, [104]⟩
end Noko

namespace Noko

/-- Feeding a `Finished` or `Failed` session fails with `InvalidState`
and leaves the session unchanged (spec 4.1). -/
theorem feed_terminal {σ τ : Type} (caps : Capabilities σ τ) (s : Session σ τ)
    (chunk : Option (List Nat)) (isLast : Bool)
    (h : s.state = SessionState.Finished ∨ s.state = SessionState.Failed) :
    Session.feed caps s chunk isLast = (s, Except.error FeedFailure.InvalidState) := by
  unfold Session.feed
  rw [if_pos h]

/-- Reduction lemma: an empty (or nil) chunk with `isLast = false` on a
non-terminal session is a no-op returning Ok (spec 4.1). -/
theorem feed_noop {σ τ : Type} (caps : Capabilities σ τ) (s : Session σ τ)
    (chunk : Option (List Nat))
    (hstate : ¬(s.state = SessionState.Finished ∨ s.state = SessionState.Failed))
    (hempty : chunk.getD [] = []) :
    Session.feed caps s chunk false = (s, Except.ok ()) := by
  unfold Session.feed
  dsimp only
  rw [if_neg hstate, if_pos (And.intro hempty rfl)]

/-- Reduction lemma: when the buffered bytes fail to decode, `feed`
makes the session `Failed` and fails with the always-Fatal decode
error, for either value of `recoverMode` (spec 4.3). -/
theorem feed_decode_failure {σ τ : Type} (caps : Capabilities σ τ) (s : Session σ τ)
    (chunk : Option (List Nat)) (isLast : Bool) (e : String)
    (hstate : ¬(s.state = SessionState.Finished ∨ s.state = SessionState.Failed))
    (hne : ¬(chunk.getD [] = [] ∧ isLast = false))
    (henc : s.encoding.getD (caps.sniff (s.pendingBuffer ++ chunk.getD [])) = e)
    (hdec : caps.decode e (s.pendingBuffer ++ chunk.getD []) = none) :
    Session.feed caps s chunk isLast =
      ({ s with state := SessionState.Failed,
                encoding := some e,
                errorSink := s.errorSink ++ [decodeFailure] },
       Except.error (FeedFailure.FatalParseError decodeFailure)) := by
  unfold Session.feed
  dsimp only
  rw [if_neg hstate, if_neg hne, henc, hdec]

/-- Reduction lemma: a successful decode on a non-terminal session in
recover mode appends every tokenizer error to `errorSink` as
`Recoverable` and returns Ok, finishing on the last chunk. -/
theorem feed_recover_ok {σ τ : Type} (caps : Capabilities σ τ) (s : Session σ τ)
    (chunk : Option (List Nat)) (isLast : Bool) (e : String) (tr : List Char × List Nat)
    (hstate : ¬(s.state = SessionState.Finished ∨ s.state = SessionState.Failed))
    (hrec : s.recoverMode = true)
    (hne : ¬(chunk.getD [] = [] ∧ isLast = false))
    (henc : s.encoding.getD (caps.sniff (s.pendingBuffer ++ chunk.getD [])) = e)
    (hdec : caps.decode e (s.pendingBuffer ++ chunk.getD []) = some tr) :
    Session.feed caps s chunk isLast =
      ({ s with
          state := if isLast then SessionState.Finished else SessionState.Feeding,
          encoding := some e,
          pendingBuffer := if isLast then [] else tr.2,
          tokState := (runTok caps s.tokState (if isLast then tr.1 ++ caps.forceDecode e tr.2 else tr.1) isLast).1,
          outputs := s.outputs ++ (runTok caps s.tokState (if isLast then tr.1 ++ caps.forceDecode e tr.2 else tr.1) isLast).2.1,
          errorSink := s.errorSink ++ ((runTok caps s.tokState (if isLast then tr.1 ++ caps.forceDecode e tr.2 else tr.1) isLast).2.2).map
            (fun er => ⟨er.message, classify true, er.location⟩) },
       Except.ok ()) := by
  unfold Session.feed
  dsimp only
  rw [if_neg hstate, if_neg hne, henc, hdec]
  dsimp only
  rw [if_pos hrec]

/-- Reduction lemma: a successful decode on a non-terminal session in
strict mode with no tokenizer errors returns Ok, finishing on the last
chunk. -/
theorem feed_strict_ok {σ τ : Type} (caps : Capabilities σ τ) (s : Session σ τ)
    (chunk : Option (List Nat)) (isLast : Bool) (e : String) (tr : List Char × List Nat)
    (hstate : ¬(s.state = SessionState.Finished ∨ s.state = SessionState.Failed))
    (hrec : s.recoverMode = false)
    (hne : ¬(chunk.getD [] = [] ∧ isLast = false))
    (henc : s.encoding.getD (caps.sniff (s.pendingBuffer ++ chunk.getD [])) = e)
    (hdec : caps.decode e (s.pendingBuffer ++ chunk.getD []) = some tr)
    (herr : (runTok caps s.tokState (if isLast then tr.1 ++ caps.forceDecode e tr.2 else tr.1) isLast).2.2 = []) :
    Session.feed caps s chunk isLast =
      ({ s with
          state := if isLast then SessionState.Finished else SessionState.Feeding,
          encoding := some e,
          pendingBuffer := if isLast then [] else tr.2,
          tokState := (runTok caps s.tokState (if isLast then tr.1 ++ caps.forceDecode e tr.2 else tr.1) isLast).1,
          outputs := s.outputs ++ (runTok caps s.tokState (if isLast then tr.1 ++ caps.forceDecode e tr.2 else tr.1) isLast).2.1 },
       Except.ok ()) := by
  unfold Session.feed
  dsimp only
  rw [if_neg hstate, if_neg hne, henc, hdec]
  dsimp only
  rw [if_neg (by rw [hrec]; exact Bool.false_ne_true : ¬(s.recoverMode = true)), herr]

/-- Reduction lemma: in strict mode a first tokenizer error makes the
session `Failed` and `feed` fails with `FatalParseError` carrying it. -/
theorem feed_strict_err {σ τ : Type} (caps : Capabilities σ τ) (s : Session σ τ)
    (chunk : Option (List Nat)) (isLast : Bool) (e : String) (tr : List Char × List Nat)
    (er : RawError) (es : List RawError)
    (hstate : ¬(s.state = SessionState.Finished ∨ s.state = SessionState.Failed))
    (hrec : s.recoverMode = false)
    (hne : ¬(chunk.getD [] = [] ∧ isLast = false))
    (henc : s.encoding.getD (caps.sniff (s.pendingBuffer ++ chunk.getD [])) = e)
    (hdec : caps.decode e (s.pendingBuffer ++ chunk.getD []) = some tr)
    (herr : (runTok caps s.tokState (if isLast then tr.1 ++ caps.forceDecode e tr.2 else tr.1) isLast).2.2 = er :: es) :
    Session.feed caps s chunk isLast =
      ({ s with
          state := SessionState.Failed,
          encoding := some e,
          pendingBuffer := if isLast then [] else tr.2,
          tokState := (runTok caps s.tokState (if isLast then tr.1 ++ caps.forceDecode e tr.2 else tr.1) isLast).1,
          outputs := s.outputs ++ (runTok caps s.tokState (if isLast then tr.1 ++ caps.forceDecode e tr.2 else tr.1) isLast).2.1,
          errorSink := s.errorSink ++ [⟨er.message, Severity.Fatal, er.location⟩] },
       Except.error (FeedFailure.FatalParseError ⟨er.message, Severity.Fatal, er.location⟩)) := by
  unfold Session.feed
  dsimp only
  rw [if_neg hstate, if_neg hne, henc, hdec]
  dsimp only
  rw [if_neg (by rw [hrec]; exact Bool.false_ne_true : ¬(s.recoverMode = true)), herr]
  rfl

/-- For a compositional (incremental) tokenizer capability, one
tokenizer run over concatenated text equals the two runs in sequence,
with token and error streams concatenating in order. -/
theorem runTok_append {σ τ : Type} (caps : Capabilities σ τ)
    (hcomp : ∀ (st : σ) (a b : List Char),
      caps.feedText st (a ++ b) =
        ((caps.feedText (caps.feedText st a).1 b).1,
         (caps.feedText st a).2.1 ++ (caps.feedText (caps.feedText st a).1 b).2.1,
         (caps.feedText st a).2.2 ++ (caps.feedText (caps.feedText st a).1 b).2.2))
    (st : σ) (a b : List Char) (isLast : Bool) :
    runTok caps st (a ++ b) isLast =
      ((runTok caps (caps.feedText st a).1 b isLast).1,
       (caps.feedText st a).2.1 ++ (runTok caps (caps.feedText st a).1 b isLast).2.1,
       (caps.feedText st a).2.2 ++ (runTok caps (caps.feedText st a).1 b isLast).2.2) := by
  unfold runTok
  rw [hcomp]
  cases isLast <;> simp [List.append_assoc]

/-- C10: every call to `native_write` leaves the global libxml
structured-error-handler state unchanged on every exit path — the
handler is saved before `htmlParseChunk` runs and restored before the
function returns or raises, whatever handler state the chunk-parsing
call itself produces. -/
theorem C10_handler_state_preserved {σ : Type}
    (htmlParseChunk : HandlerState → σ → List Nat → Bool → HandlerState × σ × Option XmlSyntaxError × Int)
    (g : HandlerState) (ctx : Ctxt σ) (chunk : Option (List Nat)) (lastChunk : Bool) :
    (native_write htmlParseChunk g ctx chunk lastChunk).1 = g := by
  unfold native_write
  dsimp only
  split <;> rfl

/-- C1: with the `XML_PARSE_RECOVER` option set on the parser context,
`native_write` never raises a parse error — it returns Ok for every
chunk (nil included), every last-chunk flag and every status returned
by the underlying parser; and a recover-mode session whose buffered
bytes decode is brought to `Finished` by `feed(_, isLast := true)`. -/
theorem C1_recover_mode_totality :
    (∀ (σ : Type)
        (htmlParseChunk : HandlerState → σ → List Nat → Bool → HandlerState × σ × Option XmlSyntaxError × Int)
        (g : HandlerState) (ctx : Ctxt σ) (chunk : Option (List Nat)) (lastChunk : Bool),
        ctx.options &&& XML_PARSE_RECOVER ≠ 0 →
        ∃ c, native_write htmlParseChunk g ctx chunk lastChunk = (g, Except.ok c))
    ∧ (∀ (σ τ : Type) (caps : Capabilities σ τ) (s : Session σ τ)
        (chunk : Option (List Nat)) (e : String) (tr : List Char × List Nat),
        s.recoverMode = true →
        ¬(s.state = SessionState.Finished ∨ s.state = SessionState.Failed) →
        s.encoding.getD (caps.sniff (s.pendingBuffer ++ chunk.getD [])) = e →
        caps.decode e (s.pendingBuffer ++ chunk.getD []) = some tr →
        (Session.feed caps s chunk true).1.state = SessionState.Finished ∧
        (Session.feed caps s chunk true).2 = Except.ok ()) := by
  constructor
  · intro σ hpc g ctx chunk lastChunk h
    unfold native_write
    dsimp only
    rw [if_neg (fun hh => h hh.2)]
    exact ⟨_, rfl⟩
  · intro σ τ caps s chunk e tr hrec hstate henc hdec
    have hne : ¬(chunk.getD [] = [] ∧ (true : Bool) = false) := fun hh => by cases hh.2
    rw [feed_recover_ok caps s chunk true e tr hstate hrec hne henc hdec]
    exact ⟨rfl, rfl⟩

/-- C2: in strict mode (`recoverMode = false`), a `feed` call on input
whose tokenization surfaces a well-formedness violation fails with
`FatalParseError` carrying the triggering error, the session becomes
`Failed`, and every subsequent `feed` call on that session fails with
`InvalidState` without attempting to parse. -/
theorem C2_strict_mode_abort {σ τ : Type} (caps : Capabilities σ τ) (s : Session σ τ)
    (chunk : Option (List Nat)) (isLast : Bool) (e : String) (tr : List Char × List Nat)
    (er : RawError) (es : List RawError)
    (hstate : ¬(s.state = SessionState.Finished ∨ s.state = SessionState.Failed))
    (hrec : s.recoverMode = false)
    (hne : ¬(chunk.getD [] = [] ∧ isLast = false))
    (henc : s.encoding.getD (caps.sniff (s.pendingBuffer ++ chunk.getD [])) = e)
    (hdec : caps.decode e (s.pendingBuffer ++ chunk.getD []) = some tr)
    (herr : (runTok caps s.tokState (if isLast then tr.1 ++ caps.forceDecode e tr.2 else tr.1) isLast).2.2 = er :: es) :
    (Session.feed caps s chunk isLast).2 =
      Except.error (FeedFailure.FatalParseError ⟨er.message, Severity.Fatal, er.location⟩) ∧
    (Session.feed caps s chunk isLast).1.state = SessionState.Failed ∧
    (∀ (chunk2 : Option (List Nat)) (isLast2 : Bool),
      Session.feed caps (Session.feed caps s chunk isLast).1 chunk2 isLast2 =
        ((Session.feed caps s chunk isLast).1, Except.error FeedFailure.InvalidState)) := by
  have h := feed_strict_err caps s chunk isLast e tr er es hstate hrec hne henc hdec herr
  refine ⟨by rw [h], by rw [h], ?_⟩
  intro chunk2 isLast2
  apply feed_terminal
  rw [h]
  exact Or.inr rfl

/-- C3: a decode failure makes `feed` fail with a `Fatal` error and the
session `Failed` for every session — no hypothesis on `recoverMode`, so
the result holds whether it is true or false. -/
theorem C3_decode_failure_always_fatal {σ τ : Type} (caps : Capabilities σ τ) (s : Session σ τ)
    (chunk : Option (List Nat)) (isLast : Bool) (e : String)
    (hstate : ¬(s.state = SessionState.Finished ∨ s.state = SessionState.Failed))
    (hne : ¬(chunk.getD [] = [] ∧ isLast = false))
    (henc : s.encoding.getD (caps.sniff (s.pendingBuffer ++ chunk.getD [])) = e)
    (hdec : caps.decode e (s.pendingBuffer ++ chunk.getD []) = none) :
    (Session.feed caps s chunk isLast).2 = Except.error (FeedFailure.FatalParseError decodeFailure) ∧
    (Session.feed caps s chunk isLast).1.state = SessionState.Failed ∧
    decodeFailure.severity = Severity.Fatal := by
  have h := feed_decode_failure caps s chunk isLast e hstate hne henc hdec
  exact ⟨by rw [h], by rw [h], rfl⟩

/-- C4: `initialize_native` given a non-nil encoding name that
`xmlParseCharEncoding` does not recognize fails with the Unsupported
Encoding argument error for every context-creation behaviour (so before
and independent of any parser-context creation), and with a recognized
or nil encoding name it never fails with that error. -/
theorem C4_unrecognized_encoding :
    (∀ (σ : Type) (xmlParseCharEncoding : String → Int)
        (htmlCreatePushParserCtxt : Int → Option String → Option (Ctxt σ))
        (filename : Option String) (name : String),
        xmlParseCharEncoding name = XML_CHAR_ENCODING_ERROR →
        initialize_native xmlParseCharEncoding htmlCreatePushParserCtxt filename (some name) =
          Except.error RubyError.unsupportedEncoding)
    ∧ (∀ (σ : Type) (xmlParseCharEncoding : String → Int)
        (htmlCreatePushParserCtxt : Int → Option String → Option (Ctxt σ))
        (filename : Option String) (encoding : Option String),
        (∀ name, encoding = some name → xmlParseCharEncoding name ≠ XML_CHAR_ENCODING_ERROR) →
        initialize_native xmlParseCharEncoding htmlCreatePushParserCtxt filename encoding ≠
          Except.error RubyError.unsupportedEncoding) := by
  constructor
  · intro σ pce cc fn name h
    unfold initialize_native
    dsimp only
    rw [if_pos h]
  · intro σ pce cc fn encoding h
    unfold initialize_native
    cases encoding with
    | none =>
        dsimp only
        rcases hc : cc XML_CHAR_ENCODING_NONE fn with _ | c <;> simp [hc]
    | some name =>
        dsimp only
        rw [if_neg (h name rfl)]
        dsimp only
        rcases hc : cc (pce name) fn with _ | c <;> simp [hc]

/-- C6 counterexample: on a session in the `Finished` state, a `feed`
call with an empty chunk and `isLast = false` is not a no-op returning
Ok — it fails with `InvalidState`. -/
theorem C6_counterexample :
    (Session.feed asciiCaps finishedSession (some []) false).2 ≠ Except.ok () ∧
    (Session.feed asciiCaps finishedSession (some []) false).2 = Except.error FeedFailure.InvalidState := by
  decide

/-- C6 (amended): on a session that is not `Finished` or `Failed`, a
`feed` call with an empty chunk and `isLast = false` is a no-op that
returns Ok and leaves the session — state, pending buffer, outputs and
accumulated error list — unchanged. -/
theorem C6_empty_chunk_noop {σ τ : Type} (caps : Capabilities σ τ) (s : Session σ τ)
    (chunk : Option (List Nat))
    (hstate : ¬(s.state = SessionState.Finished ∨ s.state = SessionState.Failed))
    (hempty : chunk.getD [] = []) :
    Session.feed caps s chunk false = (s, Except.ok ()) :=
  feed_noop caps s chunk hstate hempty

/-- C8: once the session's encoding is resolved, every later `feed`
call — on any chunk, last or not, whatever its outcome — leaves the
resolved encoding unchanged, even if later bytes would sniff
differently. -/
theorem C8_encoding_stable {σ τ : Type} (caps : Capabilities σ τ) (s : Session σ τ)
    (chunk : Option (List Nat)) (isLast : Bool) (e : String)
    (henc : s.encoding = some e) :
    (Session.feed caps s chunk isLast).1.encoding = some e := by
  unfold Session.feed
  rw [henc]
  simp only [Option.getD_some]
  repeat' split
  all_goals first | exact henc | rfl

/-- C7: feeding two pieces in order via two `feed` calls produces the
same token stream — the same final session, with identical outputs and
error list — as feeding the whole sequence in one call, for any split
point that does not fall inside a multi-byte encoding unit (the decode
hypotheses) and an incremental (compositional) tokenizer capability. -/
theorem C7_split_stream_equivalence {σ τ : Type} (caps : Capabilities σ τ) (s : Session σ τ)
    (c1 c2 : List Nat) (isLast : Bool) (e : String)
    (t1 t2 : List Char) (r2 : List Nat)
    (hstate : s.state = SessionState.Feeding)
    (hrec : s.recoverMode = true)
    (hbuf : s.pendingBuffer = [])
    (henc : s.encoding = some e)
    (hc1 : c1 ≠ [])
    (hc2 : c2 ≠ [])
    (h1 : caps.decode e c1 = some (t1, []))
    (h2 : caps.decode e c2 = some (t2, r2))
    (h12 : caps.decode e (c1 ++ c2) = some (t1 ++ t2, r2))
    (hcomp : ∀ (st : σ) (a b : List Char),
      caps.feedText st (a ++ b) =
        ((caps.feedText (caps.feedText st a).1 b).1,
         (caps.feedText st a).2.1 ++ (caps.feedText (caps.feedText st a).1 b).2.1,
         (caps.feedText st a).2.2 ++ (caps.feedText (caps.feedText st a).1 b).2.2)) :
    (Session.feed caps s (some c1) false).2 = Except.ok () ∧
    Session.feed caps (Session.feed caps s (some c1) false).1 (some c2) isLast =
      Session.feed caps s (some (c1 ++ c2)) isLast := by
  have hstate' : ¬(s.state = SessionState.Finished ∨ s.state = SessionState.Failed) := by
    rw [hstate]
    intro h
    rcases h with h | h <;> cases h
  have hne1 : ¬((some c1).getD [] = [] ∧ (false : Bool) = false) := fun hh => hc1 hh.1
  have henc1 : s.encoding.getD (caps.sniff (s.pendingBuffer ++ (some c1).getD [])) = e := by
    rw [henc]
    rfl
  have hdec1 : caps.decode e (s.pendingBuffer ++ (some c1).getD []) = some (t1, []) := by
    rw [hbuf]
    exact h1
  have hA := feed_recover_ok caps s (some c1) false e (t1, []) hstate' hrec hne1 henc1 hdec1
  simp only [runTok] at hA
  simp at hA
  rw [hA]
  refine ⟨rfl, ?_⟩
  dsimp only
  set R : Session σ τ :=
    { state := SessionState.Feeding, recoverMode := s.recoverMode, filename := s.filename,
      encoding := some e, pendingBuffer := [],
      errorSink := s.errorSink ++
        List.map (fun er => { message := er.message, severity := classify true, location := er.location })
          (caps.feedText s.tokState t1).2.2,
      tokState := (caps.feedText s.tokState t1).1,
      outputs := s.outputs ++ (caps.feedText s.tokState t1).2.1 } with hR
  have hsl : ¬(R.state = SessionState.Finished ∨ R.state = SessionState.Failed) := by
    rw [hR]
    intro h
    rcases h with h | h <;> cases h
  have hrl : R.recoverMode = true := by rw [hR]; exact hrec
  have hne2 : ¬((some c2).getD [] = [] ∧ isLast = false) := fun hh => hc2 hh.1
  have hel : R.encoding.getD (caps.sniff (R.pendingBuffer ++ (some c2).getD [])) = e := by
    simp [hR]
  have hdl : caps.decode e (R.pendingBuffer ++ (some c2).getD []) = some (t2, r2) := by
    simpa [hR] using h2
  have hne12 : ¬((some (c1 ++ c2)).getD [] = [] ∧ isLast = false) := fun hh =>
    hc1 (List.append_eq_nil.mp hh.1).1
  have henc12 : s.encoding.getD (caps.sniff (s.pendingBuffer ++ (some (c1 ++ c2)).getD [])) = e := by
    rw [henc]
    rfl
  have hdec12 : caps.decode e (s.pendingBuffer ++ (some (c1 ++ c2)).getD []) = some (t1 ++ t2, r2) := by
    rw [hbuf]
    exact h12
  rw [feed_recover_ok caps R (some c2) isLast e (t2, r2) hsl hrl hne2 hel hdl,
      feed_recover_ok caps s (some (c1 ++ c2)) isLast e (t1 ++ t2, r2) hstate' hrec hne12 henc12 hdec12]
  cases isLast
  · simp only [hR]
    simp [runTok, List.append_assoc, List.map_append, hcomp]
  · simp only [hR]
    simp [runTok, List.append_assoc, List.map_append, hcomp]

/-- C5 counterexample: a strict-mode session in the `Feeding` state
whose final chunk surfaces a tokenizer error does not reach `Finished`
with Ok on `feed(_, isLast := true)` — it fails and becomes `Failed`. -/
theorem C5_counterexample :
    feedingStrict.state = SessionState.Feeding ∧
    (Session.feed soupCaps feedingStrict (some [104]) true).2 ≠ Except.ok () ∧
    (Session.feed soupCaps feedingStrict (some [104]) true).1.state = SessionState.Failed := by
  decide

/-- C5 (amended): for every session in the `Feeding` state, a `feed`
call with `isLast = true` on which no fatal error arises — the buffered
bytes decode, and in strict mode the tokenizer raises no error —
flushes the pending buffer, runs end-of-document finalization,
transitions the session to `Finished` and returns Ok, even when
recoverable errors have accumulated in `errorSink`. -/
theorem C5_last_chunk_finishes {σ τ : Type} (caps : Capabilities σ τ) (s : Session σ τ)
    (chunk : Option (List Nat)) (e : String) (tr : List Char × List Nat)
    (hstate : s.state = SessionState.Feeding)
    (henc : s.encoding.getD (caps.sniff (s.pendingBuffer ++ chunk.getD [])) = e)
    (hdec : caps.decode e (s.pendingBuffer ++ chunk.getD []) = some tr)
    (hok : s.recoverMode = false → (runTok caps s.tokState (tr.1 ++ caps.forceDecode e tr.2) true).2.2 = []) :
    (Session.feed caps s chunk true).1.state = SessionState.Finished ∧
    (Session.feed caps s chunk true).1.pendingBuffer = [] ∧
    (Session.feed caps s chunk true).1.tokState = (runTok caps s.tokState (tr.1 ++ caps.forceDecode e tr.2) true).1 ∧
    (Session.feed caps s chunk true).2 = Except.ok () := by
  have hstate' : ¬(s.state = SessionState.Finished ∨ s.state = SessionState.Failed) := by
    rw [hstate]
    intro h
    rcases h with h | h <;> cases h
  have hne : ¬(chunk.getD [] = [] ∧ (true : Bool) = false) := fun hh => by cases hh.2
  cases hR : s.recoverMode with
  | true =>
      rw [feed_recover_ok caps s chunk true e tr hstate' hR hne henc hdec]
      exact ⟨rfl, rfl, rfl, rfl⟩
  | false =>
      rw [feed_strict_ok caps s chunk true e tr hstate' hR hne henc hdec (hok hR)]
      exact ⟨rfl, rfl, rfl, rfl⟩

/-- C9: `native_write` with a nil chunk behaves exactly as with an
empty chunk — it hands the parser no bytes (`NULL`, size 0) and never
reads from the nil value — and at the session level `feed(nil, isLast)`
equals `feed(empty, isLast)`; in particular `feed(nil, true)` performs
normal end-of-document finalization and finishes the session. -/
theorem C9_nil_chunk_as_empty :
    (∀ (σ : Type)
        (htmlParseChunk : HandlerState → σ → List Nat → Bool → HandlerState × σ × Option XmlSyntaxError × Int)
        (g : HandlerState) (ctx : Ctxt σ) (lastChunk : Bool),
        native_write htmlParseChunk g ctx none lastChunk =
          native_write htmlParseChunk g ctx (some []) lastChunk)
    ∧ (∀ (σ τ : Type) (caps : Capabilities σ τ) (s : Session σ τ) (isLast : Bool),
        Session.feed caps s none isLast = Session.feed caps s (some []) isLast)
    ∧ (∀ (σ τ : Type) (caps : Capabilities σ τ) (s : Session σ τ) (e : String) (tr : List Char × List Nat),
        ¬(s.state = SessionState.Finished ∨ s.state = SessionState.Failed) →
        s.recoverMode = true →
        s.encoding.getD (caps.sniff s.pendingBuffer) = e →
        caps.decode e s.pendingBuffer = some tr →
        (Session.feed caps s none true).1.state = SessionState.Finished ∧
        (Session.feed caps s none true).2 = Except.ok ()) := by
  refine ⟨fun σ hpc g ctx lastChunk => rfl, fun σ τ caps s isLast => rfl, ?_⟩
  intro σ τ caps s e tr hstate hrec henc hdec
  have hne : ¬((none : Option (List Nat)).getD [] = [] ∧ (true : Bool) = false) := fun hh => by cases hh.2
  have henc2 : s.encoding.getD (caps.sniff (s.pendingBuffer ++ (none : Option (List Nat)).getD [])) = e := by
    rw [Option.getD_none, List.append_nil]
    exact henc
  have hdec2 : caps.decode e (s.pendingBuffer ++ (none : Option (List Nat)).getD []) = some tr := by
    rw [Option.getD_none, List.append_nil]
    exact hdec
  rw [feed_recover_ok caps s none true e tr hstate hrec hne henc2 hdec2]
  exact ⟨rfl, rfl⟩

/-- C1 witness: concrete recover-mode context and session. -/
theorem C1_recover_mode_totality_witness :
    (∃ c, native_write (fun g st data _lastChunk => (g, st + data.length, none, 1))
        ⟨some 5, some 7⟩ (⟨1, none, 0⟩ : Ctxt Nat) (some [60]) true = (⟨some 5, some 7⟩, Except.ok c))
    ∧ ((Session.feed asciiCaps feedingRecover (some [104]) true).1.state = SessionState.Finished ∧
       (Session.feed asciiCaps feedingRecover (some [104]) true).2 = Except.ok ()) :=
  ⟨C1_recover_mode_totality.1 Nat _ ⟨some 5, some 7⟩ ⟨1, none, 0⟩ (some [60]) true (by decide),
   C1_recover_mode_totality.2 Nat Nat asciiCaps feedingRecover (some [104]) "UTF-8" (['h'], [])
     rfl (by decide) rfl (by decide)⟩

/-- C2 witness: a concrete strict-mode session aborted by a tokenizer
error, with a concrete subsequent feed refused. -/
theorem C2_strict_mode_abort_witness :
    (Session.feed soupCaps feedingStrict (some [104]) false).2 =
      Except.error (FeedFailure.FatalParseError ⟨"unmatched closing tag", Severity.Fatal, none⟩) ∧
    (Session.feed soupCaps feedingStrict (some [104]) false).1.state = SessionState.Failed ∧
    Session.feed soupCaps (Session.feed soupCaps feedingStrict (some [104]) false).1 (some [105]) false =
      ((Session.feed soupCaps feedingStrict (some [104]) false).1, Except.error FeedFailure.InvalidState) := by
  have h := C2_strict_mode_abort soupCaps feedingStrict (some [104]) false "UTF-8" (['h'], [])
      ⟨"unmatched closing tag", none⟩ [] (by decide) rfl (by decide) rfl (by decide) (by decide)
  exact ⟨h.1, h.2.1, h.2.2 (some [105]) false⟩

/-- C3 witness: the undecodable byte 200 aborts a recover-mode and a
strict-mode session alike. -/
theorem C3_decode_failure_always_fatal_witness :
    ((Session.feed asciiCaps feedingRecover (some [200]) false).2 =
        Except.error (FeedFailure.FatalParseError decodeFailure) ∧
      (Session.feed asciiCaps feedingRecover (some [200]) false).1.state = SessionState.Failed ∧
      decodeFailure.severity = Severity.Fatal) ∧
    ((Session.feed asciiCaps feedingStrict (some [200]) true).2 =
        Except.error (FeedFailure.FatalParseError decodeFailure) ∧
      (Session.feed asciiCaps feedingStrict (some [200]) true).1.state = SessionState.Failed ∧
      decodeFailure.severity = Severity.Fatal) :=
  ⟨C3_decode_failure_always_fatal asciiCaps feedingRecover (some [200]) false "UTF-8"
      (by decide) (by decide) rfl (by decide),
   C3_decode_failure_always_fatal asciiCaps feedingStrict (some [200]) true "UTF-8"
      (by decide) (by decide) rfl (by decide)⟩

/-- C4 witness: a rejected and an accepted concrete encoding name. -/
theorem C4_unrecognized_encoding_witness :
    (initialize_native (fun _ => XML_CHAR_ENCODING_ERROR) (fun _ _ => some (⟨0, none, 0⟩ : Ctxt Nat))
        none (some "bogus-enc") = Except.error RubyError.unsupportedEncoding)
    ∧ (initialize_native (fun _ => (1 : Int)) (fun _ _ => some (⟨0, none, 0⟩ : Ctxt Nat))
        none (some "UTF-8") ≠ Except.error RubyError.unsupportedEncoding) :=
  ⟨C4_unrecognized_encoding.1 Nat (fun _ => XML_CHAR_ENCODING_ERROR) (fun _ _ => some ⟨0, none, 0⟩)
      none "bogus-enc" rfl,
   C4_unrecognized_encoding.2 Nat (fun _ => (1 : Int)) (fun _ _ => some ⟨0, none, 0⟩)
      none (some "UTF-8") (fun name h => show (1 : Int) ≠ XML_CHAR_ENCODING_ERROR by decide)⟩

/-- C5 witness: a concrete recover-mode session with one accumulated
recoverable error finishes on the last chunk. -/
theorem C5_last_chunk_finishes_witness :
    (Session.feed asciiCaps feedingRecover (some [104]) true).1.state = SessionState.Finished ∧
    (Session.feed asciiCaps feedingRecover (some [104]) true).1.pendingBuffer = [] ∧
    (Session.feed asciiCaps feedingRecover (some [104]) true).1.tokState =
      (runTok asciiCaps feedingRecover.tokState (['h'] ++ asciiCaps.forceDecode "UTF-8" []) true).1 ∧
    (Session.feed asciiCaps feedingRecover (some [104]) true).2 = Except.ok () :=
  C5_last_chunk_finishes asciiCaps feedingRecover (some [104]) "UTF-8" (['h'], [])
    rfl rfl (by decide) (fun h => absurd h (by decide))

/-- C6 witness: an empty chunk on a concrete feeding session. -/
theorem C6_empty_chunk_noop_witness :
    Session.feed asciiCaps feedingRecover (some []) false = (feedingRecover, Except.ok ()) :=
  C6_empty_chunk_noop asciiCaps feedingRecover (some []) (by decide) rfl

/-- C7 witness: a concrete two-byte input split into two one-byte
chunks. -/
theorem C7_split_stream_equivalence_witness :
    (Session.feed asciiCaps feedingRecover (some [104]) false).2 = Except.ok () ∧
    Session.feed asciiCaps (Session.feed asciiCaps feedingRecover (some [104]) false).1 (some [105]) true =
      Session.feed asciiCaps feedingRecover (some ([104] ++ [105])) true :=
  C7_split_stream_equivalence asciiCaps feedingRecover [104] [105] true "UTF-8" ['h'] ['i'] []
    rfl rfl rfl rfl (by decide) (by decide) (by decide) (by decide) (by decide)
    (by
      intro st a b
      simp [asciiCaps, Nat.add_assoc])

/-- C8 witness: a concrete session with resolved encoding. -/
theorem C8_encoding_stable_witness :
    (Session.feed asciiCaps feedingRecover (some [104]) false).1.encoding = some "UTF-8" :=
  C8_encoding_stable asciiCaps feedingRecover (some [104]) false "UTF-8" rfl

/-- C9 witness: nil chunks at concrete contexts and sessions. -/
theorem C9_nil_chunk_as_empty_witness :
    (native_write (fun g st data _lastChunk => (g, st + data.length, none, 0)) ⟨none, none⟩
        (⟨0, none, 0⟩ : Ctxt Nat) none true =
      native_write (fun g st data _lastChunk => (g, st + data.length, none, 0)) ⟨none, none⟩
        (⟨0, none, 0⟩ : Ctxt Nat) (some []) true) ∧
    (Session.feed asciiCaps feedingRecover none false = Session.feed asciiCaps feedingRecover (some []) false) ∧
    ((Session.feed asciiCaps feedingRecover none true).1.state = SessionState.Finished ∧
     (Session.feed asciiCaps feedingRecover none true).2 = Except.ok ()) :=
  ⟨C9_nil_chunk_as_empty.1 Nat (fun g st data _lastChunk => (g, st + data.length, none, 0))
      ⟨none, none⟩ ⟨0, none, 0⟩ true,
   C9_nil_chunk_as_empty.2.1 Nat Nat asciiCaps feedingRecover false,
   C9_nil_chunk_as_empty.2.2 Nat Nat asciiCaps feedingRecover "UTF-8" ([], [])
      (by decide) rfl rfl (by decide)⟩

end Noko
